import Mathlib

/-!
# Limburg.net waste-pickup integration: verification development

Shallow embedding of the CSV ingestion / date parsing / aggregation pipeline
of the `limburgnet` Home Assistant custom integration
(`custom_components/limburgnet/__init__.py`, `const.py`), together with
theorems checking the natural-language specification against it.

Modelling conventions:
* Python `str` is modelled by `String`, with all character-level work done on
  `String.data : List Char`.
* Python `datetime.date` is modelled by `PDate` (year/month/day `Nat`s),
  ordered lexicographically exactly as Python orders dates.
* Machinery from the Python standard library that the source calls
  (`datetime.strptime`, `csv.Sniffer`, `csv.DictReader`, `str.split`,
  `str.splitlines`, `str.strip`) is modelled faithfully for the fragment the
  integration exercises: ASCII digits in dates, no quoted CSV fields, and
  `\n`-separated lines.  The restrictions are noted on each definition.
* Fallible Python code (raising / `try`-`except`) is modelled with `Option`
  and explicit outcome types.
-/

namespace Limburgnet

/-- Python `datetime.date`: a plain year/month/day triple. -/
structure PDate where
  year : Nat
  month : Nat
  day : Nat
deriving DecidableEq, Repr

/-- Python date comparison `a <= b`: lexicographic on (year, month, day). -/
def dle (a b : PDate) : Prop :=
  a.year < b.year ∨
    (a.year = b.year ∧ (a.month < b.month ∨ (a.month = b.month ∧ a.day ≤ b.day)))

/-- Python date comparison `a < b`: lexicographic on (year, month, day). -/
def dlt (a b : PDate) : Prop :=
  a.year < b.year ∨
    (a.year = b.year ∧ (a.month < b.month ∨ (a.month = b.month ∧ a.day < b.day)))

instance (a b : PDate) : Decidable (dle a b) := by unfold dle; infer_instance

instance (a b : PDate) : Decidable (dlt a b) := by unfold dlt; infer_instance

/-- Boolean form of `dle`. -/
def dleb (a b : PDate) : Bool := decide (dle a b)

/-- Boolean form of `dlt`. -/
def dltb (a b : PDate) : Bool := decide (dlt a b)

/-- Python `date.min` = `date(1, 1, 1)`. -/
def dateMin : PDate := ⟨1, 1, 1⟩

theorem dle_refl (a : PDate) : dle a a := by unfold dle; omega

theorem dle_trans {a b c : PDate} (h₁ : dle a b) (h₂ : dle b c) : dle a c := by
  unfold dle at *; omega

theorem dle_total (a b : PDate) : dle a b ∨ dle b a := by unfold dle; omega

theorem not_dlt_of_dle {a b : PDate} (h : dle a b) : ¬ dlt b a := by
  unfold dle at h; unfold dlt; omega

/-! ## Characters and digit strings -/

/-- Python `str.strip` whitespace predicate, restricted to the ASCII
whitespace characters (the integration's CSV feeds contain no exotic
Unicode whitespace). -/
def isWS (c : Char) : Bool :=
  c = ' ' || c = '\t' || c = '\n' || c = '\r' || c = '\x0b' || c = '\x0c'

/-- Python `str.strip()` on a character list: drop whitespace at both ends. -/
def pyStrip (l : List Char) : List Char :=
  ((l.dropWhile isWS).reverse.dropWhile isWS).reverse

/-- Numeric value of an ASCII digit character. -/
def dv (c : Char) : Nat := c.toNat - 48

/-- The ASCII digit character for `n % 10`. -/
def dChar (n : Nat) : Char := Char.ofNat (48 + n % 10)

/-- Split a character list at every occurrence of `sep`,
Python `str.split(sep)` (so the empty list yields one empty piece). -/
def splitOnChar (sep : Char) : List Char → List (List Char)
  | [] => [[]]
  | c :: cs =>
    if c = sep then
      [] :: splitOnChar sep cs
    else
      match splitOnChar sep cs with
      | [] => [[c]]
      | t :: ts => (c :: t) :: ts

/-! ## strptime on the three formats used by the integration

`datetime.strptime(v, fmt).date()` for the formats `%Y-%m-%d`, `%d/%m/%Y`,
`%d-%m-%Y`: `%Y` matches exactly four digits, `%m` one or two digits with
value 1–12, `%d` one or two digits with value 1–31, literal separators match
themselves, the whole string must be consumed, and the resulting triple must
be a real proleptic-Gregorian calendar date with year ≥ 1 (else `ValueError`).
Restricted to ASCII digits. -/

/-- `%Y`: exactly four ASCII digits. -/
def matchY4 (p : List Char) : Option Nat :=
  match p with
  | [a, b, c, d] =>
    if a.isDigit && b.isDigit && c.isDigit && d.isDigit then
      some (dv a * 1000 + dv b * 100 + dv c * 10 + dv d)
    else
      none
  | _ => none

/-- `%m` / `%d`: one or two ASCII digits whose value lies in `[lo, hi]`. -/
def match12 (lo hi : Nat) (p : List Char) : Option Nat :=
  match p with
  | [a] =>
    if a.isDigit then
      if lo ≤ dv a ∧ dv a ≤ hi then some (dv a) else none
    else
      none
  | [a, b] =>
    if a.isDigit && b.isDigit then
      let v := dv a * 10 + dv b
      if lo ≤ v ∧ v ≤ hi then some v else none
    else
      none
  | _ => none

/-- `%m`: month, 1–12. -/
def matchMM (p : List Char) : Option Nat := match12 1 12 p

/-- `%d`: day, 1–31. -/
def matchDD (p : List Char) : Option Nat := match12 1 31 p

/-- Gregorian leap year, as implemented by Python `datetime`. -/
def isLeap (y : Nat) : Bool := (y % 4 == 0 && y % 100 != 0) || y % 400 == 0

/-- Days in a month, as implemented by Python `datetime`. -/
def daysInMonth (y m : Nat) : Nat :=
  if m = 2 then (if isLeap y then 29 else 28)
  else if m = 4 ∨ m = 6 ∨ m = 9 ∨ m = 11 then 30
  else 31

/-- Validity check performed by the `datetime.date` constructor
(`MINYEAR = 1`; the year is at most four digits here so `MAXYEAR = 9999`
is enforced by `matchY4`). -/
def isValidDate (y m d : Nat) : Bool :=
  decide (1 ≤ y) && decide (1 ≤ m) && decide (m ≤ 12) &&
    decide (1 ≤ d) && decide (d ≤ daysInMonth y m)

/-- Combine the matched year, month and day pieces: all three field
matchers must succeed and the triple must be a valid calendar date
(`datetime.date` raising `ValueError` otherwise). -/
def parse3 (py pm pd : List Char) : Option PDate :=
  match matchY4 py, matchMM pm, matchDD pd with
  | some y, some m, some d =>
    if isValidDate y m d then some ⟨y, m, d⟩ else none
  | _, _, _ => none

/-- `strptime` with format year`sep`month`sep`day (i.e. `%Y-%m-%d`). -/
def parseYMD (sep : Char) (cs : List Char) : Option PDate :=
  match splitOnChar sep cs with
  | [py, pm, pd] => parse3 py pm pd
  | _ => none

/-- `strptime` with format day`sep`month`sep`year
(i.e. `%d/%m/%Y` and `%d-%m-%Y`). -/
def parseDMY (sep : Char) (cs : List Char) : Option PDate :=
  match splitOnChar sep cs with
  | [pd, pm, py] => parse3 py pm pd
  | _ => none

/-- `_parse_date` from `__init__.py`: strip the value, map the empty string
to `None`, then try `%Y-%m-%d`, `%d/%m/%Y`, `%d-%m-%Y` in order with
`strptime`, catching `ValueError` and falling through to the next format;
if no format succeeds the function logs and returns `None`. -/
def _parse_date (value : String) : Option PDate :=
  let v := pyStrip value.data
  if v = [] then none
  else
    match parseYMD '-' v with
    | some d => some d
    | none =>
      match parseDMY '/' v with
      | some d => some d
      | none => parseDMY '-' v

/-! ## Constants (`const.py`) -/

/-- `SOURCE_TYPE_URL` from `const.py`. -/
def SOURCE_TYPE_URL : String := "url"

/-- `SOURCE_TYPE_UPLOAD` from `const.py`. -/
def SOURCE_TYPE_UPLOAD : String := "upload"

/-- `WASTE_TYPES` from `const.py`: the supported waste types, matched
case-sensitively against the CSV values (a Python `set`, modelled as the
list of its elements; the code only tests membership). -/
def WASTE_TYPES : List String :=
  ["Huisvuil", "Tuinafval", "Keukenafval", "Textiel", "Pmd", "Papier & karton"]

/-! ## Records and snapshots -/

/-- One pickup dict built by `_parse_csv`:
`{"date": ..., "date_obj": ..., "waste_type": ...}`. -/
structure Pickup where
  date : String
  date_obj : Option PDate
  waste_type : String
deriving DecidableEq, Repr

/-- A pickup dict after `_clean_pickup`: only `date` and `waste_type`. -/
structure CleanPickup where
  date : String
  waste_type : String
deriving DecidableEq, Repr

/-- The dict returned by `_fetch_pickup_data`. -/
structure Snapshot where
  source_url : Option String
  next_pickup : Option CleanPickup
  pickups : List CleanPickup
deriving DecidableEq, Repr

/-- `date.isoformat()`, zero-padded `YYYY-MM-DD`
(years produced by the parser are at most four digits). -/
def isoformat (dt : PDate) : String :=
  ⟨[dChar (dt.year / 1000), dChar (dt.year / 100), dChar (dt.year / 10),
    dChar dt.year, '-', dChar (dt.month / 10), dChar dt.month, '-',
    dChar (dt.day / 10), dChar dt.day]⟩

/-- `_clean_pickup` on a present dict (the dicts built by `_parse_csv` are
never falsy, so the `if not item` guard only fires on `None`, which is
handled by `Option.map` at the call sites). -/
def _clean_pickup (item : Pickup) : CleanPickup :=
  { date := item.date, waste_type := item.waste_type }

/-! ## Line splitting and delimiter sniffing -/

/-- Drop a trailing empty piece (as `str.splitlines` does after a final
newline). -/
def dropTrailingEmpty (l : List (List Char)) : List (List Char) :=
  if l.getLast? = some [] then l.dropLast else l

/-- Python `str.splitlines()`, restricted to `\n` line endings (the only
endings the integration's CSV feeds use). -/
def splitNl (cs : List Char) : List (List Char) :=
  if cs = [] then [] else dropTrailingEmpty (splitOnChar '\n' cs)

/-- Count of occurrences of a character in a line. -/
def countChar (line : List Char) (c : Char) : Nat := line.count c

/-- The distinct 7-bit-ASCII characters occurring in a line, in order of
first occurrence; `csv.Sniffer._guess_delimiter` only ever considers
`chr(0)`–`chr(126)` as candidate delimiters. -/
def asciiCharsIn (line : List Char) : List Char :=
  (line.filter (fun c => c.toNat < 127)).dedup

/-- Pick the candidate with the largest (count, character-code) pair, as
`csv.Sniffer` does when no preferred delimiter occurs
(`items.sort(); items[-1]`). -/
def pickMaxChar (line : List Char) : List Char → Char → Char
  | [], best => best
  | c :: cs, best =>
    pickMaxChar line cs
      (if countChar line c > countChar line best ∨
          (countChar line c = countChar line best ∧ c.toNat > best.toNat)
        then c else best)

/-- `csv.Sniffer().sniff(line)` on a single sample line, restricted to lines
without quote characters (the quote-and-delimiter guesser finds nothing and
defers to the frequency-based guesser).  On one line every occurring
7-bit-ASCII character is a fully consistent candidate, so: no candidate →
`csv.Error` (`none` here); a single candidate → that character; otherwise
the first of the preferred delimiters `,` `\t` `;` ` ` `:` that occurs,
falling back to the candidate with the highest count (ties: highest code). -/
def sniffDelim (line : List Char) : Option Char :=
  match asciiCharsIn line with
  | [] => none
  | [c] => some c
  | c :: cs =>
    match [',', '\t', ';', ' ', ':'].find? (fun d => line.contains d) with
    | some d => some d
    | none => some (pickMaxChar line cs c)

/-- The first line of the content, `content.splitlines()[0]`
(the caller guarantees the content is nonempty, so the index is in range;
we use `headD` and prove separately that the list is nonempty). -/
def firstLineOf (content : String) : List Char :=
  (splitNl content.data).headD []

/-- The delimiter `_parse_csv` ends up using: the sniffed delimiter of the
first line, or `';'` when sniffing raises `csv.Error`
(the `except csv.Error` fallback sets `dialect.delimiter = ";"`). -/
def csvDelimiter (content : String) : Char :=
  match sniffDelim (firstLineOf content) with
  | some c => c
  | none => ';'

/-! ## DictReader -/

/-- Index of the last occurrence of `name` in the header fields.
`csv.DictReader` builds each row dict with `dict(zip(fieldnames, row))` and
then assigns `restval = None` to the fieldnames beyond the row's length, so
for duplicated header names the last occurrence wins. -/
def lastIdxOf (name : String) (names : List String) : Option Nat :=
  match names with
  | [] => none
  | n :: ns =>
    match lastIdxOf name ns with
    | some i => some (i + 1)
    | none => if n = name then some 0 else none

/-- `row.get(name)` on a `csv.DictReader` row: the value at the last header
position named `name`, `None` when that position is beyond the row's values
or the name is absent. -/
def rowGet (names : List String) (vals : List String) (name : String) :
    Option String :=
  match lastIdxOf name names with
  | some i => vals[i]?
  | none => none

/-! ## `_parse_csv` -/

/-- Build one pickup dict from a data row, or skip it
(the loop body of `_parse_csv`).  Restricted to unquoted CSV fields. -/
def mkRow (fieldnames : List String) (delim : Char) (line : List Char) :
    Option Pickup :=
  let vals := (splitOnChar delim line).map (fun p => (⟨p⟩ : String))
  let date_str := (rowGet fieldnames vals "Datum").getD ""
  let waste_type : String := ⟨pyStrip ((rowGet fieldnames vals "Ophaling").getD "").data⟩
  let date_obj := _parse_date date_str
  if waste_type ∈ WASTE_TYPES then
    some
      { date := match date_obj with
          | some dob => isoformat dob
          | none => date_str
        date_obj := date_obj
        waste_type := waste_type }
  else
    none

/-- The pickup dicts of `_parse_csv` in row order, before the final sort.
The header row provides the field names; data rows equal to the empty line
are skipped by `csv.DictReader` (`while row == []`). -/
def rowPickups (content : String) : List Pickup :=
  if content = "" then []
  else
    match splitNl content.data with
    | [] => []
    | header :: rest =>
      let delim := csvDelimiter content
      let fieldnames := (splitOnChar delim header).map (fun p => (⟨p⟩ : String))
      (rest.filter (fun l => l ≠ [])).filterMap (mkRow fieldnames delim)

/-- Sort key of `_parse_csv`: `item["date_obj"] or date.min`
(a present date is always truthy). -/
def sortKey (p : Pickup) : PDate := p.date_obj.getD dateMin

/-- The Boolean comparison the final stable sort of `_parse_csv` orders by. -/
def sortLe (a b : Pickup) : Bool := dleb (sortKey a) (sortKey b)

/-- `_parse_csv` from `__init__.py`: empty content → `[]`; otherwise sniff
the delimiter on the first line (falling back to `';'` on `csv.Error`), read
the rows through `csv.DictReader`, keep only rows whose stripped `Ophaling`
is in `WASTE_TYPES`, and stably sort by parsed date with `None` sorting as
`date.min` (Python `list.sort` is stable; modelled by `List.mergeSort`). -/
def _parse_csv (content : String) : List Pickup :=
  (rowPickups content).mergeSort sortLe

/-! ## `_fetch_pickup_data` -/

/-- Truthiness filter of `_fetch_pickup_data`:
`item.get("date_obj") and item["date_obj"] >= today`
(a date object is always truthy, so this is presence plus the bound). -/
def upPred (today : PDate) (p : Pickup) : Bool :=
  match p.date_obj with
  | some d => dleb today d
  | none => false

/-- The `upcoming_pickups` list comprehension of `_fetch_pickup_data`. -/
def upcomingOf (content : String) (today : PDate) : List Pickup :=
  (_parse_csv content).filter (upPred today)

/-- Python `min(l, key=...)` on a nonempty list: the first element attaining
the minimal key (`min` only replaces its best on a strictly smaller key).
The key here is `item["date_obj"]`; on the `upcoming_pickups` list every
`date_obj` is present, so the `dateMin` default never fires. -/
def pyMinByDate (l : List Pickup) : Option Pickup :=
  match l with
  | [] => none
  | x :: xs =>
    some (xs.foldl (fun b a => if dltb (sortKey a) (sortKey b) then a else b) x)

/-- The pure tail of `_fetch_pickup_data`, parameterised by the CSV text it
loaded, the configured source url it reports, and `today`
(`dt_util.now().date()` in the source). -/
def _fetch_pickup_data (content : String) (src : Option String)
    (today : PDate) : Snapshot :=
  let upcoming_pickups := upcomingOf content today
  let next_pickup := pyMinByDate upcoming_pickups
  { source_url := src
    next_pickup := next_pickup.map _clean_pickup
    pickups := upcoming_pickups.map _clean_pickup }

/-! ## `_load_csv` and the coordinator configuration -/

/-- The configuration state a `LimburgNetCoordinator` carries after
`__init__`: `self._source_url`, `self._source_type`, `self._csv_content`. -/
structure Coordinator where
  source_url : Option String
  source_type : String
  csv_content : Option String
deriving DecidableEq, Repr

/-- `LimburgNetCoordinator.__init__`: stores the url and content as given
and normalises the type with `source_type or SOURCE_TYPE_URL` (both `None`
and the empty string are falsy and default to `"url"`). -/
def initCoordinator (source_url : Option String) (source_type : Option String)
    (csv_content : Option String) : Coordinator :=
  { source_url := source_url
    source_type :=
      match source_type with
      | none => SOURCE_TYPE_URL
      | some s => if s = "" then SOURCE_TYPE_URL else s
    csv_content := csv_content }

/-- Python truthiness of an optional string (`None` and `""` are falsy). -/
def truthy (o : Option String) : Bool :=
  match o with
  | some s => s ≠ ""
  | none => false

/-- `urllib.parse.urlparse(u).scheme`: the lowercased characters before the
first `':'`, provided there is a `':'`, the prefix is nonempty, its first
character is a letter and the rest are letters, digits, `+`, `-` or `.`;
otherwise the scheme is empty. -/
def urlScheme (u : String) : String :=
  let pre := u.data.takeWhile (fun c => c ≠ ':')
  if pre.length = u.data.length then ""
  else
    match pre with
    | [] => ""
    | c :: cs =>
      if c.isAlpha &&
          cs.all (fun x => x.isAlpha || x.isDigit || x = '+' || x = '-' || x = '.')
        then ⟨(c :: cs).map Char.toLower⟩
      else ""

/-- The outside world `_load_csv` touches: HTTP responses (status and body) per
url, and local file contents (`none` models `FileNotFoundError`). -/
structure LoadEnv where
  http : String → Nat × String
  file : String → Option String

/-- The possible outcomes of `_load_csv`: returned text, the
`HomeAssistantError("No CSV source configured.")` configuration error, the
non-200-status error, or the file-not-found error. -/
inductive LoadOutcome where
  | ok (text : String)
  | noSourceError
  | httpError (status : Nat)
  | fileNotFound (path : String)
deriving DecidableEq, Repr

/-- `_load_csv` from `__init__.py`: return the uploaded content when the
source type is `"upload"` and the content is truthy; then fail with the
configuration error when no url is configured; then fetch over HTTP when
the url's scheme is `http`/`https` (non-200 status is an error); otherwise
read the url as a local file path (missing file is an error). -/
def _load_csv (co : Coordinator) (env : LoadEnv) : LoadOutcome :=
  if co.source_type = SOURCE_TYPE_UPLOAD ∧ truthy co.csv_content then
    .ok (co.csv_content.getD "")
  else
    match co.source_url with
    | none => .noSourceError
    | some u =>
      if u = "" then .noSourceError
      else if urlScheme u = "http" ∨ urlScheme u = "https" then
        let r := env.http u
        if r.1 = 200 then .ok r.2 else .httpError r.1
      else
        match env.file u with
        | some t => .ok t
        | none => .fileNotFound u

/-! ## Spec-side reference definitions and renderings -/

/-- Modelled from the spec (§4.1 DateParser): "strip surrounding whitespace;
empty string → absent; attempt, in fixed priority order, the three formats
ISO `YYYY-MM-DD`, `DD/MM/YYYY`, `DD-MM-YYYY` and return the date from the
first format that matches; if none matches return absent."  The individual
format matchers are the `strptime` models above; this definition differs
from `_parse_date` in shape (a first-success search over a list of
matchers) and is compared against it in claim C5. -/
def dateParserSpec (text : String) : Option PDate :=
  let t := pyStrip text.data
  if t = [] then none
  else [parseYMD '-', parseDMY '/', parseDMY '-'].findSome? (fun f => f t)

/-- The `DD/MM/YYYY` / `DD-MM-YYYY` zero-padded rendering of a date
(years of at most four digits). -/
def renderDMY (sep : Char) (dt : PDate) : String :=
  ⟨[dChar (dt.day / 10), dChar dt.day, sep, dChar (dt.month / 10),
    dChar dt.month, sep, dChar (dt.year / 1000), dChar (dt.year / 100),
    dChar (dt.year / 10), dChar dt.year]⟩

/-- A concrete environment: every HTTP fetch succeeds with body `"body"`,
every file is missing. -/
def envEx : LoadEnv :=
  { http := fun _ => (200, "body"), file := fun _ => none }

/-! ## Helper lemmas -/

theorem mem_rowPickups_waste {content : String} {p : Pickup}
    (hp : p ∈ rowPickups content) : p.waste_type ∈ WASTE_TYPES := by
  unfold rowPickups at hp
  split at hp
  · simp at hp
  · split at hp
    · simp at hp
    · rw [List.mem_filterMap] at hp
      obtain ⟨l, -, hmk⟩ := hp
      unfold mkRow at hmk
      dsimp only at hmk
      split at hmk
      · rw [Option.some.injEq] at hmk
        subst hmk
        assumption
      · exact absurd hmk (by simp)

theorem mem_parse_csv_waste {content : String} {p : Pickup}
    (hp : p ∈ _parse_csv content) : p.waste_type ∈ WASTE_TYPES :=
  mem_rowPickups_waste (List.mem_mergeSort.mp hp)

/-! ## Claims -/

/-- C3: on the CSV text
`"Datum;Ophaling;Verwijderd;Reden\n2025-01-10;Huisvuil;;\n2025-01-05;Onbekend;;\n"`
ingestion yields exactly one record, with waste type `Huisvuil` and date
2025-01-10; the `Onbekend` row is dropped. -/
theorem claim_c3 :
    _parse_csv "Datum;Ophaling;Verwijderd;Reden\n2025-01-10;Huisvuil;;\n2025-01-05;Onbekend;;\n" =
      [{ date := "2025-01-10", date_obj := some ⟨2025, 1, 10⟩,
         waste_type := "Huisvuil" }] := by
  have h : rowPickups "Datum;Ophaling;Verwijderd;Reden\n2025-01-10;Huisvuil;;\n2025-01-05;Onbekend;;\n" =
      [{ date := "2025-01-10", date_obj := some ⟨2025, 1, 10⟩,
         waste_type := "Huisvuil" }] := by decide
  rw [_parse_csv, h]
  simp

/-- C4 counterexample: the claim's recognized set is wrong on the code.
`"PMD"` is not a member of `WASTE_TYPES` (the code has `"Pmd"`), and a CSV
row whose `Ophaling` field is exactly `PMD` is dropped by ingestion rather
than retained. -/
theorem claim_c4_counterexample :
    "PMD" ∉ WASTE_TYPES ∧ "Papier & Karton" ∉ WASTE_TYPES ∧
      _parse_csv "Datum;Ophaling;Verwijderd;Reden\n2025-01-10;PMD;;\n" = [] := by
  refine ⟨by decide, by decide, ?_⟩
  have h : rowPickups "Datum;Ophaling;Verwijderd;Reden\n2025-01-10;PMD;;\n" = [] := by
    decide
  rw [_parse_csv, h]
  simp

/-- C4 (amended): `WASTE_TYPES` is the fixed six-element set
`{Huisvuil, Pmd, Textiel, Papier & karton, Tuinafval, Keukenafval}`
(case-sensitive); a row whose trimmed `Ophaling` is exactly `Pmd` is
retained, and every record ingestion retains has its waste type in this
set (so a row whose `Ophaling` is not an exact member is dropped). -/
theorem claim_c4_amended :
    ("Huisvuil" ∈ WASTE_TYPES ∧ "Pmd" ∈ WASTE_TYPES ∧ "Textiel" ∈ WASTE_TYPES ∧
      "Papier & karton" ∈ WASTE_TYPES ∧ "Tuinafval" ∈ WASTE_TYPES ∧
      "Keukenafval" ∈ WASTE_TYPES ∧ WASTE_TYPES.length = 6) ∧
    _parse_csv "Datum;Ophaling;Verwijderd;Reden\n2025-01-10;Pmd;;\n" =
      [{ date := "2025-01-10", date_obj := some ⟨2025, 1, 10⟩,
         waste_type := "Pmd" }] ∧
    ∀ (content : String) (p : Pickup),
      p ∈ _parse_csv content → p.waste_type ∈ WASTE_TYPES := by
  refine ⟨by decide, ?_, fun content p hp => mem_parse_csv_waste hp⟩
  have h : rowPickups "Datum;Ophaling;Verwijderd;Reden\n2025-01-10;Pmd;;\n" =
      [{ date := "2025-01-10", date_obj := some ⟨2025, 1, 10⟩,
         waste_type := "Pmd" }] := by decide
  rw [_parse_csv, h]
  simp

/-- Witness for C4 (amended), at the `Pmd` example row. -/
theorem claim_c4_amended_witness :
    ({ date := "2025-01-10", date_obj := some ⟨2025, 1, 10⟩,
       waste_type := "Pmd" } : Pickup).waste_type ∈ WASTE_TYPES :=
  claim_c4_amended.2.2 "Datum;Ophaling;Verwijderd;Reden\n2025-01-10;Pmd;;\n" _
    (claim_c4_amended.2.1 ▸ List.mem_singleton.mpr rfl)

/-- C5: `_parse_date` equals the spec's reference date parser: strip
whitespace, empty → absent, then try ISO `YYYY-MM-DD`, `DD/MM/YYYY`,
`DD-MM-YYYY` in that fixed priority order and return the first match,
absent if none matches. -/
theorem claim_c5 : ∀ s : String, _parse_date s = dateParserSpec s := by
  intro s
  unfold _parse_date dateParserSpec
  cases hv : pyStrip s.data with
  | nil => simp
  | cons c cs =>
    simp only [List.findSome?_cons, reduceCtorEq, if_false]
    cases parseYMD '-' (c :: cs) with
    | some d => simp
    | none =>
      simp only []
      cases parseDMY '/' (c :: cs) with
      | some d => simp
      | none =>
        simp only [List.findSome?_cons, List.findSome?_nil]
        cases parseDMY '-' (c :: cs) <;> rfl

/-- C7: date parsing is total; every empty or whitespace-only string parses
to absent, and the result is absent exactly when none of the three format
matchers accepts the stripped string (so unrecognized formats yield absent
rather than an error). -/
theorem claim_c7 : ∀ s : String,
    (s.data.all isWS → _parse_date s = none) ∧
    (_parse_date s = none ↔
      parseYMD '-' (pyStrip s.data) = none ∧
      parseDMY '/' (pyStrip s.data) = none ∧
      parseDMY '-' (pyStrip s.data) = none) := by
  intro s
  constructor
  · intro hws
    have h1 : s.data.dropWhile isWS = [] := by
      rw [List.dropWhile_eq_nil_iff]
      exact fun a ha => List.all_eq_true.mp hws a ha
    unfold _parse_date pyStrip
    rw [h1]
    simp
  · unfold _parse_date
    cases hv : pyStrip s.data with
    | nil =>
      simp only [if_pos rfl]
      exact ⟨fun _ => ⟨by decide, by decide, by decide⟩, fun _ => rfl⟩
    | cons c cs =>
      simp only [reduceCtorEq, if_false]
      cases hy : parseYMD '-' (c :: cs) with
      | some d => simp [hy]
      | none =>
        cases hm : parseDMY '/' (c :: cs) with
        | some d => simp [hy, hm]
        | none => simp [hy, hm]

/-- Witness for C7: a whitespace-only string and an unrecognized format
both parse to absent. -/
theorem claim_c7_witness :
    _parse_date "   " = none ∧ _parse_date "10.01.2025" = none :=
  ⟨(claim_c7 "   ").1 (by decide),
   (claim_c7 "10.01.2025").2.mpr ⟨by decide, by decide, by decide⟩⟩

theorem splitOnChar_ne_nil (sep : Char) (cs : List Char) :
    splitOnChar sep cs ≠ [] := by
  cases cs with
  | nil => simp [splitOnChar]
  | cons c cs =>
    unfold splitOnChar
    split
    · simp
    · split <;> simp

theorem splitOnChar_nl_ne_single {cs : List Char} (h : cs ≠ []) :
    splitOnChar '\n' cs ≠ [[]] := by
  cases cs with
  | nil => exact absurd rfl h
  | cons c cs =>
    unfold splitOnChar
    split
    · intro hc
      exact splitOnChar_ne_nil '\n' cs ((List.cons.injEq _ _ _ _).mp hc).2
    · split
      · intro hc
        simp at hc
      · intro hc
        simp at hc

theorem splitNl_ne_nil {cs : List Char} (h : cs ≠ []) : splitNl cs ≠ [] := by
  unfold splitNl
  rw [if_neg h]
  unfold dropTrailingEmpty
  split
  · rename_i hlast
    intro hd
    rcases hl : splitOnChar '\n' cs with _ | ⟨x, xs⟩
    · exact splitOnChar_ne_nil '\n' cs hl
    · rcases xs with _ | ⟨y, ys⟩
      · rw [hl] at hlast
        simp only [List.getLast?_singleton, Option.some.injEq] at hlast
        subst hlast
        exact splitOnChar_nl_ne_single h hl
      · rw [hl] at hd
        simp at hd
  · exact splitOnChar_ne_nil '\n' cs

/-- C8: CSV ingestion on empty input returns the empty sequence; for
nonempty input the first-line index used by delimiter detection is in
range; the delimiter only depends on the first line of the input; and when
sniffing fails (`csv.Error`), the parse falls back to the `';'` delimiter
instead of raising. -/
theorem claim_c8 :
    _parse_csv "" = [] ∧
    (∀ content : String, content ≠ "" → splitNl content.data ≠ []) ∧
    (∀ c₁ c₂ : String, firstLineOf c₁ = firstLineOf c₂ →
      csvDelimiter c₁ = csvDelimiter c₂) ∧
    (∀ content : String, sniffDelim (firstLineOf content) = none →
      csvDelimiter content = ';') := by
  refine ⟨?_, ?_, ?_, ?_⟩
  · rw [_parse_csv, show rowPickups "" = [] from rfl]
    simp
  · intro content hc
    refine splitNl_ne_nil (fun hd => hc ?_)
    cases content
    simp_all
  · intro c₁ c₂ h
    unfold csvDelimiter
    rw [h]
  · intro content h
    unfold csvDelimiter
    rw [h]

/-- Witness for C8, at concrete inputs: a nonempty content has a first
line, equal first lines give equal delimiters, and a content whose first
line has no 7-bit-ASCII character falls back to `';'`. -/
theorem claim_c8_witness :
    splitNl ("Datum;Ophaling" : String).data ≠ [] ∧
    csvDelimiter "Datum;Ophaling\nrowA" = csvDelimiter "Datum;Ophaling\nrowB" ∧
    csvDelimiter "ä" = ';' :=
  ⟨claim_c8.2.1 "Datum;Ophaling" (by decide),
   claim_c8.2.2.1 "Datum;Ophaling\nrowA" "Datum;Ophaling\nrowB" (by decide),
   claim_c8.2.2.2 "ä" (by decide)⟩

/-- C9 counterexample: an upload-kind configuration whose stored CSV text
is the empty string does not have that text returned by `_load_csv`; with
no url configured the load fails with the configuration error instead. -/
theorem claim_c9_counterexample :
    (initCoordinator none (some SOURCE_TYPE_UPLOAD) (some "")).source_type =
      SOURCE_TYPE_UPLOAD ∧
    _load_csv (initCoordinator none (some SOURCE_TYPE_UPLOAD) (some "")) envEx =
      LoadOutcome.noSourceError ∧
    LoadOutcome.noSourceError ≠ LoadOutcome.ok "" :=
  ⟨rfl, rfl, by decide⟩

/-- C9 (amended): for every upload-kind configuration whose stored CSV text
is nonempty, `_load_csv` returns that text verbatim and independently of
the I/O environment (no I/O); and whenever the inline branch is unusable
(not upload-type, or absent/empty content) and no URL/path is set,
`_load_csv` fails immediately with the configuration error. -/
theorem claim_c9_amended :
    (∀ (su : Option String) (cc : String) (env : LoadEnv), cc ≠ "" →
      _load_csv (initCoordinator su (some SOURCE_TYPE_UPLOAD) (some cc)) env =
        LoadOutcome.ok cc ∧
      ∀ env₂ : LoadEnv,
        _load_csv (initCoordinator su (some SOURCE_TYPE_UPLOAD) (some cc)) env₂ =
          _load_csv (initCoordinator su (some SOURCE_TYPE_UPLOAD) (some cc)) env) ∧
    (∀ (co : Coordinator) (env : LoadEnv),
      ¬ (co.source_type = SOURCE_TYPE_UPLOAD ∧ truthy co.csv_content) →
      (co.source_url = none ∨ co.source_url = some "") →
      _load_csv co env = LoadOutcome.noSourceError) := by
  constructor
  · intro su cc env hcc
    have hok :
        _load_csv (initCoordinator su (some SOURCE_TYPE_UPLOAD) (some cc)) env =
          LoadOutcome.ok cc := by
      unfold _load_csv initCoordinator
      rw [if_pos]
      · rfl
      · exact ⟨by simp [SOURCE_TYPE_UPLOAD], by simpa [truthy] using hcc⟩
    refine ⟨hok, fun env₂ => ?_⟩
    rw [hok]
    unfold _load_csv initCoordinator
    rw [if_pos]
    · rfl
    · exact ⟨by simp [SOURCE_TYPE_UPLOAD], by simpa [truthy] using hcc⟩
  · intro co env hni hurl
    unfold _load_csv
    rw [if_neg hni]
    rcases hurl with h | h <;> rw [h]
    rfl

/-- Witness for C9 (amended): the inline text comes back verbatim, and an
unconfigured source is a configuration error. -/
theorem claim_c9_amended_witness :
    _load_csv (initCoordinator (some "http://example.invalid/a.csv")
        (some SOURCE_TYPE_UPLOAD) (some "Datum;Ophaling")) envEx =
      LoadOutcome.ok "Datum;Ophaling" ∧
    _load_csv (initCoordinator none (some SOURCE_TYPE_URL) none) envEx =
      LoadOutcome.noSourceError :=
  ⟨(claim_c9_amended.1 (some "http://example.invalid/a.csv") "Datum;Ophaling"
      envEx (by decide)).1,
   claim_c9_amended.2 (initCoordinator none (some SOURCE_TYPE_URL) none) envEx
      (by decide) (Or.inl rfl)⟩

/-- C10 (implicit): a coordinator constructed with `source_type` absent is
normalised to the `"url"` source type and behaves exactly like one whose
type is `"url"` — stored inline content is ignored; and an upload-type
coordinator whose `csv_content` is the empty string falls through to the
URL/file loading path. -/
theorem claim_c10 : ∀ (su : Option String) (cc : Option String) (env : LoadEnv),
    (initCoordinator su none cc).source_type = SOURCE_TYPE_URL ∧
    _load_csv (initCoordinator su none cc) env =
      _load_csv (initCoordinator su (some SOURCE_TYPE_URL) none) env ∧
    _load_csv (initCoordinator su (some SOURCE_TYPE_UPLOAD) (some "")) env =
      _load_csv (initCoordinator su (some SOURCE_TYPE_URL) none) env := by
  intro su cc env
  refine ⟨rfl, ?_, ?_⟩ <;>
    · unfold _load_csv initCoordinator
      rw [if_neg (by simp [SOURCE_TYPE_URL, SOURCE_TYPE_UPLOAD, truthy]),
        if_neg (by simp [SOURCE_TYPE_URL, SOURCE_TYPE_UPLOAD, truthy])]

/-! ## Sortedness and stability of the pipeline -/

theorem sortLe_iff {a b : Pickup} : sortLe a b = true ↔ dle (sortKey a) (sortKey b) := by
  unfold sortLe dleb
  exact decide_eq_true_iff

theorem sortLe_trans_bool : ∀ a b c : Pickup, sortLe a b → sortLe b c → sortLe a c := by
  intro a b c hab hbc
  exact sortLe_iff.mpr (dle_trans (sortLe_iff.mp hab) (sortLe_iff.mp hbc))

theorem sortLe_total_bool : ∀ a b : Pickup, sortLe a b || sortLe b a := by
  intro a b
  rcases dle_total (sortKey a) (sortKey b) with h | h
  · simp [sortLe_iff.mpr h]
  · simp [sortLe_iff.mpr h]

theorem pairwise_upcomingOf (content : String) (today : PDate) :
    (upcomingOf content today).Pairwise (fun a b => dle (sortKey a) (sortKey b)) := by
  have hs : (_parse_csv content).Pairwise (fun a b => sortLe a b) :=
    List.sorted_mergeSort sortLe_trans_bool sortLe_total_bool (rowPickups content)
  exact (List.Pairwise.sublist (List.filter_sublist _) hs).imp fun h => sortLe_iff.mp h

theorem mem_upcomingOf {content : String} {today : PDate} {p : Pickup}
    (hp : p ∈ upcomingOf content today) :
    p.waste_type ∈ WASTE_TYPES ∧ ∃ d, p.date_obj = some d ∧ dle today d := by
  unfold upcomingOf at hp
  rw [List.mem_filter] at hp
  refine ⟨mem_parse_csv_waste hp.1, ?_⟩
  have h2 := hp.2
  unfold upPred at h2
  cases hd : p.date_obj with
  | none => rw [hd] at h2; cases h2
  | some d =>
    rw [hd] at h2
    exact ⟨d, rfl, by simpa [dleb] using h2⟩

theorem enumLE_imp {a b : Nat × Pickup} (h : List.enumLE sortLe a b) :
    dle (sortKey a.2) (sortKey b.2) ∧
      (dle (sortKey b.2) (sortKey a.2) → a.1 ≤ b.1) := by
  unfold List.enumLE at h
  split at h
  · rename_i h1
    split at h
    · exact ⟨sortLe_iff.mp h1, fun _ => by simpa using h⟩
    · rename_i h2
      exact ⟨sortLe_iff.mp h1, fun hba => absurd (sortLe_iff.mpr hba) h2⟩
  · cases h

/-- C1: for every CSV text and every `today`, the upcoming sequence of the
snapshot is well-formed: the snapshot's `pickups` are exactly the cleaned
upcoming records; every upcoming record has a recognized waste type and a
present parsed date `≥ today`; the sequence is sorted ascending by date;
and ties are broken by original row order — the sequence is the image of an
index-decorated list whose entries carry their original row positions, are
exactly the filtered rows, and are pairwise ordered by date with equal
dates in increasing row position. -/
theorem claim_c1 : ∀ (content : String) (src : Option String) (today : PDate),
    (_fetch_pickup_data content src today).pickups =
      (upcomingOf content today).map _clean_pickup ∧
    (∀ p ∈ upcomingOf content today,
      p.waste_type ∈ WASTE_TYPES ∧ ∃ d, p.date_obj = some d ∧ dle today d) ∧
    (upcomingOf content today).Pairwise
      (fun a b => dle (sortKey a) (sortKey b)) ∧
    ∃ idxed : List (Nat × Pickup),
      idxed.map Prod.snd = upcomingOf content today ∧
      idxed.Perm (((rowPickups content).enum).filter (fun x => upPred today x.2)) ∧
      (∀ x ∈ idxed, (rowPickups content)[x.1]? = some x.2) ∧
      idxed.Pairwise (fun a b => dle (sortKey a.2) (sortKey b.2) ∧
        (dle (sortKey b.2) (sortKey a.2) → a.1 ≤ b.1)) := by
  intro content src today
  refine ⟨rfl, fun p hp => mem_upcomingOf hp, pairwise_upcomingOf content today, ?_⟩
  refine ⟨((rowPickups content).enum.mergeSort (List.enumLE sortLe)).filter
      (fun x => upPred today x.2), ?_, ?_, ?_, ?_⟩
  · have h1 : ∀ S : List (Nat × Pickup),
        (S.filter (fun x => upPred today x.2)).map Prod.snd =
          (S.map Prod.snd).filter (upPred today) := by
      intro S
      induction S with
      | nil => rfl
      | cons a as ih =>
        by_cases h : upPred today a.2
        · simp only [List.filter_cons, List.map_cons, h, if_pos, ih]
        · simp only [List.filter_cons, List.map_cons, h, Bool.false_eq_true,
            if_false, ih]
    have hms : ((rowPickups content).enum.mergeSort (List.enumLE sortLe)).map
        Prod.snd = _parse_csv content := List.mergeSort_enum
    rw [h1, hms]
    rfl
  · exact (List.mergeSort_perm _ _).filter _
  · intro x hx
    have hx1 : x ∈ (rowPickups content).enum :=
      List.mem_mergeSort.mp (List.mem_filter.mp hx).1
    exact List.mem_enum_iff_getElem?.mp hx1
  · have hs := List.sorted_mergeSort (List.enumLE_trans sortLe_trans_bool)
      (List.enumLE_total sortLe_total_bool) ((rowPickups content).enum)
    exact (List.Pairwise.sublist (List.filter_sublist _) hs).imp
      fun h => enumLE_imp h

/-- Witness for C1, at a one-row CSV and today = 2025-01-01. -/
theorem claim_c1_witness :
    ({ date := "2025-01-10", date_obj := some ⟨2025, 1, 10⟩,
       waste_type := "Huisvuil" } : Pickup).waste_type ∈ WASTE_TYPES ∧
    ∃ d, ({ date := "2025-01-10", date_obj := some ⟨2025, 1, 10⟩,
            waste_type := "Huisvuil" } : Pickup).date_obj = some d ∧
      dle ⟨2025, 1, 1⟩ d := by
  refine (claim_c1 "Datum;Ophaling\n2025-01-10;Huisvuil\n" none ⟨2025, 1, 1⟩).2.1 _ ?_
  have hrows : rowPickups "Datum;Ophaling\n2025-01-10;Huisvuil\n" =
      [{ date := "2025-01-10", date_obj := some ⟨2025, 1, 10⟩,
         waste_type := "Huisvuil" }] := by decide
  show _ ∈ upcomingOf _ _
  unfold upcomingOf _parse_csv
  rw [hrows]
  simp only [List.mergeSort_singleton]
  decide

/-! ## `next_pickup` -/

theorem foldl_min_of_sorted (x : Pickup) (xs : List Pickup)
    (h : ∀ a ∈ xs, dle (sortKey x) (sortKey a)) :
    xs.foldl (fun b a => if dltb (sortKey a) (sortKey b) then a else b) x = x := by
  induction xs with
  | nil => rfl
  | cons a as ih =>
    rw [List.foldl_cons, if_neg]
    · exact ih fun b hb => h b (List.mem_cons_of_mem a hb)
    · have hxa : ¬ dlt (sortKey a) (sortKey x) :=
        not_dlt_of_dle (h a (List.mem_cons_self a as))
      simpa [dltb] using hxa

theorem pyMin_eq_head (l : List Pickup)
    (hs : l.Pairwise (fun a b => dle (sortKey a) (sortKey b))) :
    pyMinByDate l = l.head? := by
  cases l with
  | nil => rfl
  | cons x xs =>
    rw [show pyMinByDate (x :: xs) = some (xs.foldl
        (fun b a => if dltb (sortKey a) (sortKey b) then a else b) x) from rfl]
    rw [foldl_min_of_sorted x xs fun a ha => List.rel_of_pairwise_cons hs ha]
    rfl

/-- C2: for every CSV text, source url and `today`, the snapshot's
`next_pickup` equals the first element of its `pickups` sequence, is absent
exactly when that sequence is empty, and the element `min` picks is a
minimum-date element of the upcoming records. -/
theorem claim_c2 : ∀ (content : String) (src : Option String) (today : PDate),
    (_fetch_pickup_data content src today).next_pickup =
      (_fetch_pickup_data content src today).pickups.head? ∧
    ((_fetch_pickup_data content src today).next_pickup = none ↔
      (_fetch_pickup_data content src today).pickups = []) ∧
    (∀ q, pyMinByDate (upcomingOf content today) = some q →
      ∀ p ∈ upcomingOf content today, dle (sortKey q) (sortKey p)) := by
  intro content src today
  have hs := pairwise_upcomingOf content today
  have hm := pyMin_eq_head (upcomingOf content today) hs
  refine ⟨?_, ?_, ?_⟩
  · show (pyMinByDate (upcomingOf content today)).map _clean_pickup =
      ((upcomingOf content today).map _clean_pickup).head?
    rw [hm, List.head?_map]
  · show (pyMinByDate (upcomingOf content today)).map _clean_pickup = none ↔
      (upcomingOf content today).map _clean_pickup = []
    rw [hm]
    cases upcomingOf content today <;> simp
  · intro q hq p hp
    rw [hm] at hq
    cases hu : upcomingOf content today with
    | nil => rw [hu] at hq; cases hq
    | cons x xs =>
      rw [hu] at hq
      rw [List.head?_cons, Option.some.injEq] at hq
      subst hq
      rw [hu] at hp hs
      rcases List.mem_cons.mp hp with h | h
      · subst h; exact dle_refl _
      · exact List.rel_of_pairwise_cons hs h

/-- Witness for C2, at a one-row CSV and today = 2025-01-01. -/
theorem claim_c2_witness :
    (_fetch_pickup_data "Datum;Ophaling\n2025-01-10;Huisvuil\n" (some "u")
        ⟨2025, 1, 1⟩).next_pickup =
      (_fetch_pickup_data "Datum;Ophaling\n2025-01-10;Huisvuil\n" (some "u")
        ⟨2025, 1, 1⟩).pickups.head? ∧
    dle (sortKey { date := "2025-01-10", date_obj := some ⟨2025, 1, 10⟩,
                   waste_type := "Huisvuil" })
      (sortKey { date := "2025-01-10", date_obj := some ⟨2025, 1, 10⟩,
                 waste_type := "Huisvuil" }) := by
  have hrows : rowPickups "Datum;Ophaling\n2025-01-10;Huisvuil\n" =
      [{ date := "2025-01-10", date_obj := some ⟨2025, 1, 10⟩,
         waste_type := "Huisvuil" }] := by decide
  have hup : upcomingOf "Datum;Ophaling\n2025-01-10;Huisvuil\n" ⟨2025, 1, 1⟩ =
      [{ date := "2025-01-10", date_obj := some ⟨2025, 1, 10⟩,
         waste_type := "Huisvuil" }] := by
    unfold upcomingOf _parse_csv
    rw [hrows]
    simp only [List.mergeSort_singleton]
    decide
  refine ⟨(claim_c2 "Datum;Ophaling\n2025-01-10;Huisvuil\n" (some "u")
      ⟨2025, 1, 1⟩).1, ?_⟩
  refine (claim_c2 "Datum;Ophaling\n2025-01-10;Huisvuil\n" (some "u")
      ⟨2025, 1, 1⟩).2.2 _ ?_ _ ?_
  · rw [hup]; rfl
  · rw [hup]; exact List.mem_singleton.mpr rfl

/-! ## Digit and rendering lemmas for claim C6 -/

theorem ws_dChar (n : Nat) : isWS (dChar n) = false := by
  unfold dChar isWS
  have h : n % 10 < 10 := Nat.mod_lt _ (by decide)
  revert h
  generalize n % 10 = k
  intro h
  interval_cases k <;> decide

theorem isDigit_dChar (n : Nat) : (dChar n).isDigit = true := by
  unfold dChar
  have h : n % 10 < 10 := Nat.mod_lt _ (by decide)
  revert h
  generalize n % 10 = k
  intro h
  interval_cases k <;> decide

theorem dv_dChar (n : Nat) : dv (dChar n) = n % 10 := by
  unfold dv dChar
  have h : n % 10 < 10 := Nat.mod_lt _ (by decide)
  revert h
  generalize n % 10 = k
  intro h
  interval_cases k <;> decide

theorem dChar_ne_dash (n : Nat) : ¬ dChar n = '-' := by
  intro h
  have := isDigit_dChar n
  rw [h] at this
  cases this

theorem dChar_ne_slash (n : Nat) : ¬ dChar n = '/' := by
  intro h
  have := isDigit_dChar n
  rw [h] at this
  cases this

theorem splitOnChar_of_not_mem (sep : Char) (l : List Char)
    (h : ∀ c ∈ l, ¬ c = sep) : splitOnChar sep l = [l] := by
  induction l with
  | nil => rfl
  | cons c cs ih =>
    unfold splitOnChar
    rw [if_neg (h c (List.mem_cons_self c cs))]
    rw [ih fun x hx => h x (List.mem_cons_of_mem c hx)]

theorem splitOnChar_append (sep : Char) (xs ys : List Char)
    (h : ∀ c ∈ xs, ¬ c = sep) :
    splitOnChar sep (xs ++ sep :: ys) = xs :: splitOnChar sep ys := by
  induction xs with
  | nil =>
    rw [List.nil_append]
    simp only [splitOnChar]
    simp
  | cons c cs ih =>
    rw [List.cons_append]
    simp only [splitOnChar]
    rw [if_neg (h c (List.mem_cons_self c cs))]
    rw [ih fun x hx => h x (List.mem_cons_of_mem c hx)]

theorem pyStrip_of_no_ws (l : List Char) (h : ∀ c ∈ l, isWS c = false) :
    pyStrip l = l := by
  have hrev : ∀ m : List Char, (∀ c ∈ m, isWS c = false) →
      m.dropWhile isWS = m := by
    intro m hm
    cases m with
    | nil => rfl
    | cons c cs =>
      rw [List.dropWhile_cons,
        if_neg (by simp [hm c (List.mem_cons_self c cs)])]
  unfold pyStrip
  rw [hrev l h, hrev l.reverse fun c hc => h c (List.mem_reverse.mp hc)]
  exact List.reverse_reverse l

theorem daysInMonth_le (y m : Nat) : daysInMonth y m ≤ 31 := by
  unfold daysInMonth
  split
  · split <;> omega
  · split <;> omega

theorem matchY4_pad (y : Nat) (hy : y ≤ 9999) :
    matchY4 [dChar (y / 1000), dChar (y / 100), dChar (y / 10), dChar y] =
      some y := by
  show (if ((dChar (y / 1000)).isDigit && (dChar (y / 100)).isDigit &&
      (dChar (y / 10)).isDigit && (dChar y).isDigit) = true then
      some (dv (dChar (y / 1000)) * 1000 + dv (dChar (y / 100)) * 100 +
        dv (dChar (y / 10)) * 10 + dv (dChar y))
    else none) = some y
  rw [isDigit_dChar, isDigit_dChar, isDigit_dChar, isDigit_dChar]
  rw [if_pos (show (true && true && true && true) = true from rfl)]
  rw [dv_dChar, dv_dChar, dv_dChar, dv_dChar]
  congr 1
  omega

theorem match12_pad (lo hi x : Nat) (hx : x ≤ 99) (h1 : lo ≤ x) (h2 : x ≤ hi) :
    match12 lo hi [dChar (x / 10), dChar x] = some x := by
  show (if ((dChar (x / 10)).isDigit && (dChar x).isDigit) = true then
      let v := dv (dChar (x / 10)) * 10 + dv (dChar x)
      if lo ≤ v ∧ v ≤ hi then some v else none
    else none) = some x
  rw [isDigit_dChar, isDigit_dChar]
  rw [if_pos (show (true && true) = true from rfl)]
  rw [dv_dChar, dv_dChar]
  have hv : x / 10 % 10 * 10 + x % 10 = x := by omega
  rw [hv]
  show (if lo ≤ x ∧ x ≤ hi then some x else none) = some x
  exact if_pos ⟨h1, h2⟩

theorem parse3_pad (y m d : Nat) (hv : isValidDate y m d = true)
    (hy : y ≤ 9999) (hm1 : 1 ≤ m) (hm2 : m ≤ 12) (hd1 : 1 ≤ d)
    (hd2 : d ≤ 31) :
    parse3 [dChar (y / 1000), dChar (y / 100), dChar (y / 10), dChar y]
      [dChar (m / 10), dChar m] [dChar (d / 10), dChar d] =
      some ⟨y, m, d⟩ := by
  unfold parse3
  rw [matchY4_pad y hy]
  rw [show matchMM [dChar (m / 10), dChar m] = some m from
    match12_pad 1 12 m (by omega) hm1 hm2]
  rw [show matchDD [dChar (d / 10), dChar d] = some d from
    match12_pad 1 31 d (by omega) hd1 hd2]
  exact if_pos hv

theorem parse3_none (py pm pd : List Char) (h : matchY4 py = none) :
    parse3 py pm pd = none := by
  unfold parse3
  rw [h]

/-- C6: the three renderings of the same calendar day in the supported
formats (`YYYY-MM-DD`, `DD/MM/YYYY`, `DD-MM-YYYY`) are all parsed by
`_parse_date` to that same calendar date. -/
theorem claim_c6 : ∀ y m d : Nat, isValidDate y m d = true → y ≤ 9999 →
    _parse_date (isoformat ⟨y, m, d⟩) = some ⟨y, m, d⟩ ∧
    _parse_date (renderDMY '/' ⟨y, m, d⟩) = some ⟨y, m, d⟩ ∧
    _parse_date (renderDMY '-' ⟨y, m, d⟩) = some ⟨y, m, d⟩ := by
  intro y m d hv hy
  have hb : 1 ≤ y ∧ 1 ≤ m ∧ m ≤ 12 ∧ 1 ≤ d ∧ d ≤ 31 := by
    unfold isValidDate at hv
    simp only [Bool.and_eq_true, decide_eq_true_eq] at hv
    have := daysInMonth_le y m
    omega
  have hp3 : parse3 [dChar (y / 1000), dChar (y / 100), dChar (y / 10),
      dChar y] [dChar (m / 10), dChar m] [dChar (d / 10), dChar d] =
      some ⟨y, m, d⟩ :=
    parse3_pad y m d hv hy (by omega) (by omega) (by omega) (by omega)
  have hymd : parseYMD '-' [dChar (y / 1000), dChar (y / 100), dChar (y / 10),
      dChar y, '-', dChar (m / 10), dChar m, '-', dChar (d / 10), dChar d] =
      some ⟨y, m, d⟩ := by
    unfold parseYMD
    rw [show [dChar (y / 1000), dChar (y / 100), dChar (y / 10), dChar y, '-',
          dChar (m / 10), dChar m, '-', dChar (d / 10), dChar d] =
        [dChar (y / 1000), dChar (y / 100), dChar (y / 10), dChar y] ++
          '-' :: ([dChar (m / 10), dChar m] ++
            '-' :: [dChar (d / 10), dChar d]) from rfl]
    rw [splitOnChar_append _ _ _ (by
      intro c hc
      simp only [List.mem_cons, List.not_mem_nil, or_false] at hc
      rcases hc with rfl | rfl | rfl | rfl <;> exact dChar_ne_dash _)]
    rw [splitOnChar_append _ _ _ (by
      intro c hc
      simp only [List.mem_cons, List.not_mem_nil, or_false] at hc
      rcases hc with rfl | rfl <;> exact dChar_ne_dash _)]
    rw [splitOnChar_of_not_mem _ _ (by
      intro c hc
      simp only [List.mem_cons, List.not_mem_nil, or_false] at hc
      rcases hc with rfl | rfl <;> exact dChar_ne_dash _)]
    exact hp3
  have hdmy : ∀ sep : Char, (∀ n : Nat, ¬ dChar n = sep) →
      parseDMY sep [dChar (d / 10), dChar d, sep, dChar (m / 10), dChar m,
        sep, dChar (y / 1000), dChar (y / 100), dChar (y / 10), dChar y] =
      some ⟨y, m, d⟩ := by
    intro sep hsep
    unfold parseDMY
    rw [show [dChar (d / 10), dChar d, sep, dChar (m / 10), dChar m, sep,
          dChar (y / 1000), dChar (y / 100), dChar (y / 10), dChar y] =
        [dChar (d / 10), dChar d] ++ sep :: ([dChar (m / 10), dChar m] ++
          sep :: [dChar (y / 1000), dChar (y / 100), dChar (y / 10),
            dChar y]) from rfl]
    rw [splitOnChar_append _ _ _ (by
      intro c hc
      simp only [List.mem_cons, List.not_mem_nil, or_false] at hc
      rcases hc with rfl | rfl <;> exact hsep _)]
    rw [splitOnChar_append _ _ _ (by
      intro c hc
      simp only [List.mem_cons, List.not_mem_nil, or_false] at hc
      rcases hc with rfl | rfl <;> exact hsep _)]
    rw [splitOnChar_of_not_mem _ _ (by
      intro c hc
      simp only [List.mem_cons, List.not_mem_nil, or_false] at hc
      rcases hc with rfl | rfl | rfl | rfl <;> exact hsep _)]
    exact hp3
  refine ⟨?_, ?_, ?_⟩
  · have hstrip : pyStrip (isoformat (⟨y, m, d⟩ : PDate)).data =
        (isoformat (⟨y, m, d⟩ : PDate)).data := by
      apply pyStrip_of_no_ws
      intro c hc
      have hc2 : c ∈ [dChar (y / 1000), dChar (y / 100), dChar (y / 10),
          dChar y, '-', dChar (m / 10), dChar m, '-', dChar (d / 10),
          dChar d] := hc
      simp only [List.mem_cons, List.not_mem_nil, or_false] at hc2
      rcases hc2 with rfl | rfl | rfl | rfl | rfl | rfl | rfl | rfl | rfl | rfl <;>
        first | exact ws_dChar _ | rfl
    unfold _parse_date
    rw [hstrip]
    rw [show (isoformat (⟨y, m, d⟩ : PDate)).data = [dChar (y / 1000),
        dChar (y / 100), dChar (y / 10), dChar y, '-', dChar (m / 10),
        dChar m, '-', dChar (d / 10), dChar d] from rfl]
    rw [if_neg (by simp)]
    rw [hymd]
  · have hstrip : pyStrip (renderDMY '/' (⟨y, m, d⟩ : PDate)).data =
        (renderDMY '/' (⟨y, m, d⟩ : PDate)).data := by
      apply pyStrip_of_no_ws
      intro c hc
      have hc2 : c ∈ [dChar (d / 10), dChar d, '/', dChar (m / 10), dChar m,
          '/', dChar (y / 1000), dChar (y / 100), dChar (y / 10),
          dChar y] := hc
      simp only [List.mem_cons, List.not_mem_nil, or_false] at hc2
      rcases hc2 with rfl | rfl | rfl | rfl | rfl | rfl | rfl | rfl | rfl | rfl <;>
        first | exact ws_dChar _ | rfl
    unfold _parse_date
    rw [hstrip]
    rw [show (renderDMY '/' (⟨y, m, d⟩ : PDate)).data = [dChar (d / 10),
        dChar d, '/', dChar (m / 10), dChar m, '/', dChar (y / 1000),
        dChar (y / 100), dChar (y / 10), dChar y] from rfl]
    rw [if_neg (by simp)]
    have hfail : parseYMD '-' [dChar (d / 10), dChar d, '/', dChar (m / 10),
        dChar m, '/', dChar (y / 1000), dChar (y / 100), dChar (y / 10),
        dChar y] = none := by
      unfold parseYMD
      rw [splitOnChar_of_not_mem _ _ (by
        intro c hc
        simp only [List.mem_cons, List.not_mem_nil, or_false] at hc
        rcases hc with rfl | rfl | rfl | rfl | rfl | rfl | rfl | rfl | rfl | rfl <;>
          first | exact dChar_ne_dash _ | decide)]
    rw [hfail, hdmy '/' dChar_ne_slash]
  · have hstrip : pyStrip (renderDMY '-' (⟨y, m, d⟩ : PDate)).data =
        (renderDMY '-' (⟨y, m, d⟩ : PDate)).data := by
      apply pyStrip_of_no_ws
      intro c hc
      have hc2 : c ∈ [dChar (d / 10), dChar d, '-', dChar (m / 10), dChar m,
          '-', dChar (y / 1000), dChar (y / 100), dChar (y / 10),
          dChar y] := hc
      simp only [List.mem_cons, List.not_mem_nil, or_false] at hc2
      rcases hc2 with rfl | rfl | rfl | rfl | rfl | rfl | rfl | rfl | rfl | rfl <;>
        first | exact ws_dChar _ | rfl
    unfold _parse_date
    rw [hstrip]
    rw [show (renderDMY '-' (⟨y, m, d⟩ : PDate)).data = [dChar (d / 10),
        dChar d, '-', dChar (m / 10), dChar m, '-', dChar (y / 1000),
        dChar (y / 100), dChar (y / 10), dChar y] from rfl]
    rw [if_neg (by simp)]
    have hfail1 : parseYMD '-' [dChar (d / 10), dChar d, '-', dChar (m / 10),
        dChar m, '-', dChar (y / 1000), dChar (y / 100), dChar (y / 10),
        dChar y] = none := by
      unfold parseYMD
      rw [show [dChar (d / 10), dChar d, '-', dChar (m / 10), dChar m, '-',
            dChar (y / 1000), dChar (y / 100), dChar (y / 10), dChar y] =
          [dChar (d / 10), dChar d] ++ '-' :: ([dChar (m / 10), dChar m] ++
            '-' :: [dChar (y / 1000), dChar (y / 100), dChar (y / 10),
              dChar y]) from rfl]
      rw [splitOnChar_append _ _ _ (by
        intro c hc
        simp only [List.mem_cons, List.not_mem_nil, or_false] at hc
        rcases hc with rfl | rfl <;> exact dChar_ne_dash _)]
      rw [splitOnChar_append _ _ _ (by
        intro c hc
        simp only [List.mem_cons, List.not_mem_nil, or_false] at hc
        rcases hc with rfl | rfl <;> exact dChar_ne_dash _)]
      rw [splitOnChar_of_not_mem _ _ (by
        intro c hc
        simp only [List.mem_cons, List.not_mem_nil, or_false] at hc
        rcases hc with rfl | rfl | rfl | rfl <;> exact dChar_ne_dash _)]
      exact parse3_none [dChar (d / 10), dChar d] [dChar (m / 10), dChar m]
        [dChar (y / 1000), dChar (y / 100), dChar (y / 10), dChar y] rfl
    have hfail2 : parseDMY '/' [dChar (d / 10), dChar d, '-', dChar (m / 10),
        dChar m, '-', dChar (y / 1000), dChar (y / 100), dChar (y / 10),
        dChar y] = none := by
      unfold parseDMY
      rw [splitOnChar_of_not_mem _ _ (by
        intro c hc
        simp only [List.mem_cons, List.not_mem_nil, or_false] at hc
        rcases hc with rfl | rfl | rfl | rfl | rfl | rfl | rfl | rfl | rfl | rfl <;>
          first | exact dChar_ne_slash _ | decide)]
    rw [hfail1, hfail2, hdmy '-' dChar_ne_dash]

/-- Witness for C6, at the spec's example day 2025-03-01. -/
theorem claim_c6_witness :
    isValidDate 2025 3 1 = true ∧
    _parse_date "2025-03-01" = some ⟨2025, 3, 1⟩ ∧
    _parse_date "01/03/2025" = some ⟨2025, 3, 1⟩ ∧
    _parse_date "01-03-2025" = some ⟨2025, 3, 1⟩ := by
  have h := claim_c6 2025 3 1 (by decide) (by decide)
  refine ⟨by decide, ?_, ?_, ?_⟩
  · rw [show ("2025-03-01" : String) = isoformat ⟨2025, 3, 1⟩ from by decide]
    exact h.1
  · rw [show ("01/03/2025" : String) = renderDMY '/' ⟨2025, 3, 1⟩ from by decide]
    exact h.2.1
  · rw [show ("01-03-2025" : String) = renderDMY '-' ⟨2025, 3, 1⟩ from by decide]
    exact h.2.2

end Limburgnet
